import Mathlib

/-!
Shallow embedding of `src/file_processor_template.py` (class `FileProcessor`),
the single piece of control-flow logic in the repository: the methods
`process_file` and `process_directory`.

Modelling conventions:
* Python dictionaries returned by the per-file logic and by `process_file`
  are association lists `Dict := List (String × PVal)`; `dget` models
  `d.get(k)` (first matching key) and `dset` models `d[k] = v`
  (replace in place if the key is present, else append).
* The injected per-file logic `_do_process` is a parameter
  `proc : String → Except String Dict`: `.ok payload` models a normal
  return and `.error msg` models a raised exception whose `str()` is `msg`.
  (`_save_individual_result` and `_save_summary_results` are no-op stubs
  in the source — they only log — so they do not appear in the model.)
* Wall-clock durations are exact rationals: `tOf p` is the duration the
  `_do_process` call on file `p` takes, and `totalTime` is the duration of
  the whole directory traversal.  Python's `round(x, 3)` is modelled as
  exact round-half-to-even to a multiple of 1/1000 (`round3`).
* The filesystem seen by `process_directory` is `FSys`: whether the root
  path exists, whether it is a directory, and the list of entries produced
  by `path.rglob('*')` in traversal order, each tagged with `is_file()`.
* `Path(p).suffix` is `pathSuffix` (last component, last-dot rule of
  `PurePath.suffix`: nonempty only when the last dot has index `i` with
  `0 < i < len(name) - 1`); `str.lower()` is `strLower` (per-character
  ASCII lowering, the case that arises for extension strings).
-/

/-- A Python value as it occurs in the flat result dictionaries of the
template: a string or a number. -/
inductive PVal where
  | vstr : String → PVal
  | vnum : ℚ → PVal
deriving DecidableEq

/-- A Python dictionary with string keys, as an association list in
insertion order. -/
abbrev Dict : Type := List (String × PVal)

/-- Model of `d.get(k)`: the value at the first occurrence of key `k`, if any. -/
def dget (d : Dict) (k : String) : Option PVal :=
  (List.find? (fun kv => kv.1 == k) d).map (fun kv => kv.2)

/-- Model of `d[k] = v`: replace the value at the first occurrence of `k`
keeping its position, or append `(k, v)` when `k` is absent. -/
def dset (d : Dict) (k : String) (v : PVal) : Dict :=
  match d with
  | [] => [(k, v)]
  | kv :: rest => if kv.1 == k then (k, v) :: rest else kv :: dset rest k v

/-- Python `str.lower()` restricted to ASCII case mapping, the case that
matters for file-extension strings. -/
def strLower (s : String) : String :=
  String.mk (s.data.map Char.toLower)

/-- Index of the last `'.'` in a character list (`name.rfind('.')` when a
dot exists). -/
def lastDotIdx : List Char → Option Nat
  | [] => none
  | c :: rest =>
    match lastDotIdx rest with
    | some i => some (i + 1)
    | none => if c == '.' then some 0 else none

/-- The characters after the last `'/'` of a character list (the whole
list when it has no `'/'`). -/
def afterLastSlash : List Char → List Char
  | [] => []
  | c :: rest =>
    if c == '/' || rest.contains '/' then afterLastSlash rest else c :: rest

/-- The final path component (`Path(p).name` for the `/`-separated paths
produced by `rglob`). -/
def pathName (p : String) : String :=
  String.mk (afterLastSlash p.data)

/-- Model of `Path(p).suffix`: `name[i:]` when the last dot of the final component
sits at index `i` with `0 < i < len(name) - 1`, else the empty string. -/
def pathSuffix (p : String) : String :=
  let cs := (pathName p).data
  match lastDotIdx cs with
  | none => ""
  | some i => if 0 < i ∧ i + 1 < cs.length then String.mk (cs.drop i) else ""

/-- Round a rational to the nearest integer, ties to even (the rounding
used by Python's `round`). -/
def roundHalfEven (x : ℚ) : ℤ :=
  let f := ⌊x⌋
  let r := x - (f : ℚ)
  if r < 1 / 2 then f
  else if 1 / 2 < r then f + 1
  else if f % 2 = 0 then f else f + 1

/-- Python `round(x, 3)` over exact rationals. -/
def round3 (x : ℚ) : ℚ :=
  (roundHalfEven (x * 1000) : ℚ) / 1000

/-- One entry yielded by `path.rglob('*')`: its path string and the value
of `is_file()`. -/
structure Entry where
  path : String
  isFile : Bool
deriving DecidableEq

/-- The filesystem state seen by one `process_directory` call. -/
structure FSys where
  rootExists : Bool
  rootIsDir : Bool
  entries : List Entry
deriving DecidableEq

/-- The extension filter of the collection loop: a file at `p` is kept iff
the filter list is empty or `pathSuffix(p).lower()` is in the list
(`if extensions and file_path.suffix.lower() not in extensions: continue`). -/
def keepFile (extensions : List String) (p : String) : Bool :=
  extensions.isEmpty || extensions.contains (strLower (pathSuffix p))

/-- Model of `Path(p).exists()` against the traversal's filesystem: some
`rglob` entry has this path. -/
def pathExists (fs : FSys) (p : String) : Bool :=
  fs.entries.any (fun e => e.path == p)

/-- The `file_paths` list collected by `process_directory`: the paths of
the `is_file()` entries passing the extension filter, in traversal order. -/
def keptPaths (fs : FSys) (extensions : List String) : List String :=
  (fs.entries.filter (fun e => e.isFile && keepFile extensions e.path)).map Entry.path

/-- Model of `FileProcessor.process_file`: `ex` is `Path(file_path).exists()`, `t`
the wall-clock duration of the `_do_process` call, `proc` the injected
per-file logic.  A missing file and a raised fault each produce the
literal failure dictionary of the source; a normal return gets
`result['process_time'] = round(t, 3)` added. -/
def processFile (ex : Bool) (proc : String → Except String Dict) (t : ℚ)
    (p : String) : Dict :=
  if ex = false then
    [("file_path", PVal.vstr p), ("status", PVal.vstr "failed"),
     ("error", PVal.vstr "文件不存在"), ("process_time", PVal.vnum 0)]
  else
    match proc p with
    | Except.ok r => dset r "process_time" (PVal.vnum (round3 t))
    | Except.error e =>
      [("file_path", PVal.vstr p), ("status", PVal.vstr "failed"),
       ("error", PVal.vstr e), ("process_time", PVal.vnum 0)]

/-- Model of the success test `result.get('status') == 'success'` of the
counting line in `process_directory`. -/
def isSuccessRes (r : Dict) : Bool :=
  decide (dget r "status" = some (PVal.vstr "success"))

/-- The dictionary returned by `process_directory`, with its fixed keys as
fields.  `Option` records key presence: the two root-failure dictionaries
of the source carry an `error` key but no `success_count`, `failed_count`
or `average_time` key, while the traversal result carries the latter three
and no `error` key. -/
structure DirResult where
  fileDir : String
  status : String
  error : Option String
  fileCount : Nat
  successCount : Option Nat
  failedCount : Option Nat
  processTime : ℚ
  averageTime : Option ℚ
  results : List Dict
deriving DecidableEq

/-- Model of `FileProcessor.process_directory` on root path `dirPath` over
filesystem `fs`, with extension filter `extensions`, injected per-file
logic `proc`, per-file durations `tOf` and whole-traversal duration
`totalTime`. -/
def processDirectory (dirPath : String) (fs : FSys) (extensions : List String)
    (proc : String → Except String Dict) (tOf : String → ℚ) (totalTime : ℚ) :
    DirResult :=
  if fs.rootExists = false then
    { fileDir := dirPath, status := "failed", error := some "目录不存在",
      fileCount := 0, successCount := none, failedCount := none,
      processTime := 0, averageTime := none, results := [] }
  else if fs.rootIsDir = false then
    { fileDir := dirPath, status := "failed", error := some "路径不是目录",
      fileCount := 0, successCount := none, failedCount := none,
      processTime := 0, averageTime := none, results := [] }
  else
    let filePaths := keptPaths fs extensions
    let fileResults :=
      filePaths.map (fun p => processFile (pathExists fs p) proc (tOf p) p)
    let successCount := (fileResults.filter isSuccessRes).length
    let failedCount := fileResults.length - successCount
    { fileDir := dirPath,
      status := if failedCount = 0 then "success" else "partial_success",
      error := none,
      fileCount := fileResults.length,
      successCount := some successCount,
      failedCount := some failedCount,
      processTime := round3 totalTime,
      averageTime := some (if fileResults.isEmpty = true then 0
        else round3 (totalTime / (fileResults.length : ℚ))),
      results := fileResults }

/-! ## Helper lemmas about the embedded operations -/

theorem dget_cons (kv : String × PVal) (rest : Dict) (k : String) :
    dget (kv :: rest) k = if kv.1 == k then some kv.2 else dget rest k := by
  cases h : kv.1 == k <;> simp [dget, List.find?, h]

theorem dget_dset_of_ne (d : Dict) (k k' : String) (v : PVal) (h : ¬k' = k) :
    dget (dset d k v) k' = dget d k' := by
  induction d with
  | nil =>
    have hk : (k == k') = false := by
      simp only [beq_eq_false_iff_ne, ne_eq]
      exact fun hkk => h hkk.symm
    simp [dset, dget_cons, dget, hk]
  | cons kv rest ih =>
    rw [dset]
    by_cases hk : kv.1 == k
    · have hkk : kv.1 = k := by simpa using hk
      have hne : (k == k') = false := by
        simp only [beq_eq_false_iff_ne, ne_eq]
        exact fun hkk' => h hkk'.symm
      have hne' : (kv.1 == k') = false := by
        rw [hkk]; exact hne
      simp [hk, dget_cons, hne, hne']
    · simp only [hk, if_false, Bool.false_eq_true]
      rw [dget_cons, dget_cons, ih]

theorem pathExists_of_mem_keptPaths (fs : FSys) (exts : List String) (p : String)
    (h : p ∈ keptPaths fs exts) : pathExists fs p = true := by
  unfold keptPaths at h
  rcases List.mem_map.mp h with ⟨e, he, rfl⟩
  have he' : e ∈ fs.entries := List.mem_of_mem_filter he
  unfold pathExists
  rw [List.any_eq_true]
  exact ⟨e, he', by simp⟩

/-- The `file_results` list built by the traversal loop of
`process_directory`. -/
def dirFileResults (fs : FSys) (exts : List String)
    (proc : String → Except String Dict) (tOf : String → ℚ) : List Dict :=
  (keptPaths fs exts).map (fun p => processFile (pathExists fs p) proc (tOf p) p)

theorem processDirectory_ok (dirPath : String) (fs : FSys) (exts : List String)
    (proc : String → Except String Dict) (tOf : String → ℚ) (T : ℚ)
    (h1 : fs.rootExists = true) (h2 : fs.rootIsDir = true) :
    processDirectory dirPath fs exts proc tOf T =
      { fileDir := dirPath,
        status := if (dirFileResults fs exts proc tOf).length -
            ((dirFileResults fs exts proc tOf).filter isSuccessRes).length = 0
          then "success" else "partial_success",
        error := none,
        fileCount := (dirFileResults fs exts proc tOf).length,
        successCount := some ((dirFileResults fs exts proc tOf).filter isSuccessRes).length,
        failedCount := some ((dirFileResults fs exts proc tOf).length -
          ((dirFileResults fs exts proc tOf).filter isSuccessRes).length),
        processTime := round3 T,
        averageTime := some (if (dirFileResults fs exts proc tOf).isEmpty = true then 0
          else round3 (T / ((dirFileResults fs exts proc tOf).length : ℚ))),
        results := dirFileResults fs exts proc tOf } := by
  simp [processDirectory, h1, h2, dirFileResults]

/-! ## Claims -/

/-- C1: for every traversal of an existing root directory, the returned
result satisfies `successCount + failedCount == fileCount == length(results)`. -/
theorem c1_counts_invariant (dirPath : String) (fs : FSys) (exts : List String)
    (proc : String → Except String Dict) (tOf : String → ℚ) (T : ℚ)
    (h1 : fs.rootExists = true) (h2 : fs.rootIsDir = true) :
    ∃ s f, (processDirectory dirPath fs exts proc tOf T).successCount = some s ∧
      (processDirectory dirPath fs exts proc tOf T).failedCount = some f ∧
      s + f = (processDirectory dirPath fs exts proc tOf T).fileCount ∧
      (processDirectory dirPath fs exts proc tOf T).fileCount =
        (processDirectory dirPath fs exts proc tOf T).results.length := by
  rw [processDirectory_ok dirPath fs exts proc tOf T h1 h2]
  refine ⟨_, _, rfl, rfl, ?_, rfl⟩
  dsimp only
  have hle := List.length_filter_le isSuccessRes (dirFileResults fs exts proc tOf)
  omega

/-- C1 witness: the invariant instantiated at a concrete existing empty
directory. -/
theorem c1_witness :
    ∃ s f,
      (processDirectory "d" ⟨true, true, []⟩ [] (fun _ => Except.ok [])
        (fun _ => 0) 0).successCount = some s ∧
      (processDirectory "d" ⟨true, true, []⟩ [] (fun _ => Except.ok [])
        (fun _ => 0) 0).failedCount = some f ∧
      s + f = (processDirectory "d" ⟨true, true, []⟩ [] (fun _ => Except.ok [])
        (fun _ => 0) 0).fileCount ∧
      (processDirectory "d" ⟨true, true, []⟩ [] (fun _ => Except.ok [])
        (fun _ => 0) 0).fileCount =
        (processDirectory "d" ⟨true, true, []⟩ [] (fun _ => Except.ok [])
        (fun _ => 0) 0).results.length :=
  c1_counts_invariant "d" ⟨true, true, []⟩ [] (fun _ => Except.ok [])
    (fun _ => 0) 0 rfl rfl

/-- C2 counterexample: for the absent root path `/no/such/dir` the returned
record does have `status = "failed"` and `fileCount = 0`, but it is not a
record carrying the `successCount`, `failedCount` and `averageElapsed`
fields — the source's failure dictionary omits those keys. -/
theorem c2_counterexample :
    (processDirectory "/no/such/dir" ⟨false, false, []⟩ []
        (fun _ => Except.ok []) (fun _ => 0) 0).status = "failed" ∧
    (processDirectory "/no/such/dir" ⟨false, false, []⟩ []
        (fun _ => Except.ok []) (fun _ => 0) 0).fileCount = 0 ∧
    ¬((processDirectory "/no/such/dir" ⟨false, false, []⟩ []
        (fun _ => Except.ok []) (fun _ => 0) 0).successCount.isSome = true ∧
      (processDirectory "/no/such/dir" ⟨false, false, []⟩ []
        (fun _ => Except.ok []) (fun _ => 0) 0).failedCount.isSome = true ∧
      (processDirectory "/no/such/dir" ⟨false, false, []⟩ []
        (fun _ => Except.ok []) (fun _ => 0) 0).averageTime.isSome = true) := by
  refine ⟨rfl, rfl, ?_⟩
  decide

/-- C2 (amended): whenever the root path is absent or not a directory, the
whole traversal is aborted and the caller receives a result with
`status = "failed"`, `fileCount = 0`, an error message, zero elapsed time
and an empty `results` list; the failure record omits the `successCount`,
`failedCount` and `averageElapsed` fields. -/
theorem c2_root_failure (dirPath : String) (fs : FSys) (exts : List String)
    (proc : String → Except String Dict) (tOf : String → ℚ) (T : ℚ)
    (h : fs.rootExists = false ∨ fs.rootIsDir = false) :
    (processDirectory dirPath fs exts proc tOf T).status = "failed" ∧
    (processDirectory dirPath fs exts proc tOf T).fileCount = 0 ∧
    (processDirectory dirPath fs exts proc tOf T).error.isSome = true ∧
    (processDirectory dirPath fs exts proc tOf T).processTime = 0 ∧
    (processDirectory dirPath fs exts proc tOf T).results = [] ∧
    (processDirectory dirPath fs exts proc tOf T).successCount = none ∧
    (processDirectory dirPath fs exts proc tOf T).failedCount = none ∧
    (processDirectory dirPath fs exts proc tOf T).averageTime = none := by
  cases hre : fs.rootExists with
  | false => simp [processDirectory, hre]
  | true =>
    have hrd : fs.rootIsDir = false := by
      rcases h with h | h
      · rw [hre] at h; cases h
      · exact h
    simp [processDirectory, hre, hrd]

/-- C2 witness: the amended statement at the concrete absent root
`/no/such/dir`. -/
theorem c2_witness :
    (processDirectory "/no/such/dir" ⟨false, false, []⟩ ["txt"]
        (fun _ => Except.ok []) (fun _ => 0) 7).status = "failed" ∧
    (processDirectory "/no/such/dir" ⟨false, false, []⟩ ["txt"]
        (fun _ => Except.ok []) (fun _ => 0) 7).fileCount = 0 ∧
    (processDirectory "/no/such/dir" ⟨false, false, []⟩ ["txt"]
        (fun _ => Except.ok []) (fun _ => 0) 7).error.isSome = true ∧
    (processDirectory "/no/such/dir" ⟨false, false, []⟩ ["txt"]
        (fun _ => Except.ok []) (fun _ => 0) 7).processTime = 0 ∧
    (processDirectory "/no/such/dir" ⟨false, false, []⟩ ["txt"]
        (fun _ => Except.ok []) (fun _ => 0) 7).results = [] ∧
    (processDirectory "/no/such/dir" ⟨false, false, []⟩ ["txt"]
        (fun _ => Except.ok []) (fun _ => 0) 7).successCount = none ∧
    (processDirectory "/no/such/dir" ⟨false, false, []⟩ ["txt"]
        (fun _ => Except.ok []) (fun _ => 0) 7).failedCount = none ∧
    (processDirectory "/no/such/dir" ⟨false, false, []⟩ ["txt"]
        (fun _ => Except.ok []) (fun _ => 0) 7).averageTime = none :=
  c2_root_failure "/no/such/dir" ⟨false, false, []⟩ ["txt"]
    (fun _ => Except.ok []) (fun _ => 0) 7 (Or.inl rfl)

/-- C6: for a nonexistent root path the aggregator returns `status =
"failed"` and `fileCount = 0`, and the result does not depend on the
injected per-file processing function (nor on the per-file durations):
the per-file function is never invoked. -/
theorem c6_no_invocation (dirPath : String) (fs : FSys) (exts : List String)
    (proc1 proc2 : String → Except String Dict) (tOf1 tOf2 : String → ℚ)
    (T : ℚ) (h : fs.rootExists = false) :
    processDirectory dirPath fs exts proc1 tOf1 T =
      processDirectory dirPath fs exts proc2 tOf2 T ∧
    (processDirectory dirPath fs exts proc1 tOf1 T).status = "failed" ∧
    (processDirectory dirPath fs exts proc1 tOf1 T).fileCount = 0 := by
  simp [processDirectory, h]

/-- C6 witness: at the concrete root `/no/such/dir`, with two per-file
functions that differ everywhere. -/
theorem c6_witness :
    processDirectory "/no/such/dir" ⟨false, false, []⟩ []
        (fun _ => Except.ok [("status", PVal.vstr "success")]) (fun _ => 0) 0 =
      processDirectory "/no/such/dir" ⟨false, false, []⟩ []
        (fun _ => Except.error "boom") (fun _ => 1) 0 ∧
    (processDirectory "/no/such/dir" ⟨false, false, []⟩ []
        (fun _ => Except.ok [("status", PVal.vstr "success")]) (fun _ => 0) 0).status
      = "failed" ∧
    (processDirectory "/no/such/dir" ⟨false, false, []⟩ []
        (fun _ => Except.ok [("status", PVal.vstr "success")]) (fun _ => 0) 0).fileCount
      = 0 :=
  c6_no_invocation "/no/such/dir" ⟨false, false, []⟩ []
    (fun _ => Except.ok [("status", PVal.vstr "success")])
    (fun _ => Except.error "boom") (fun _ => 0) (fun _ => 1) 0 rfl

/-- C3 counterexample: the kept/skipped decision is not invariant under
changing the letter case of a filter entry.  The same file `a.txt` is kept
under the filter `[".txt"]` but skipped under `[".TXT"]`: only the file's
suffix is lower-cased, filter entries are compared verbatim. -/
theorem c3_counterexample :
    (processDirectory "d" ⟨true, true, [⟨"d/a.txt", true⟩]⟩ [".txt"]
        (fun _ => Except.ok []) (fun _ => 0) 0).fileCount = 1 ∧
    (processDirectory "d" ⟨true, true, [⟨"d/a.txt", true⟩]⟩ [".TXT"]
        (fun _ => Except.ok []) (fun _ => 0) 0).fileCount = 0 := by
  constructor <;> decide

/-- C3 (amended): the filter lower-cases only the discovered file's
suffix, so the kept/skipped decision is unchanged by changing the letter
case of the file's suffix; filter entries, however, are compared verbatim
(an entry containing an upper-case letter matches no file, as the
counterexample shows). -/
theorem c3_suffix_case_insensitive (exts : List String) (p q : String)
    (h : strLower (pathSuffix p) = strLower (pathSuffix q)) :
    keepFile exts p = keepFile exts q := by
  simp [keepFile, h]

/-- C3 witness: the files `a.TXT` and `a.txt` get the same decision under
the filter `[".txt"]`. -/
theorem c3_witness :
    keepFile [".txt"] "a.TXT" = keepFile [".txt"] "a.txt" :=
  c3_suffix_case_insensitive [".txt"] "a.TXT" "a.txt" (by decide)

/-- C4 counterexample: a fault raised by the per-file function after
timing has started (duration 5 seconds) is recorded with
`process_time = 0`, not with the captured wall-clock time. -/
theorem c4_counterexample :
    dget (processFile true (fun _ => Except.error "boom") 5 "a.txt")
        "process_time" = some (PVal.vnum 0) ∧
    dget (processFile true (fun _ => Except.error "boom") 5 "a.txt")
        "process_time" ≠ some (PVal.vnum (round3 5)) := by
  have h5 : round3 5 = 5 := by norm_num [round3, roundHalfEven]
  refine ⟨by decide, ?_⟩
  rw [h5]
  decide

/-- C4 (amended): for every existing kept file whose per-file processing
raises a fault, the recorded FileResult is the failure dictionary with
`status = "failed"`, an error message carrying the fault's description,
and `process_time = 0` — the handler records zero elapsed time for every
fault, regardless of when the fault is raised. -/
theorem c4_fault_result (proc : String → Except String Dict) (t : ℚ)
    (p e : String) (h : proc p = Except.error e) :
    processFile true proc t p =
      [("file_path", PVal.vstr p), ("status", PVal.vstr "failed"),
       ("error", PVal.vstr e), ("process_time", PVal.vnum 0)] := by
  simp [processFile, h]

/-- C4 witness: the amended statement at a concrete always-faulting
per-file function with a 5-second captured duration. -/
theorem c4_witness :
    processFile true (fun _ => Except.error "boom") 5 "a.txt" =
      [("file_path", PVal.vstr "a.txt"), ("status", PVal.vstr "failed"),
       ("error", PVal.vstr "boom"), ("process_time", PVal.vnum 0)] :=
  c4_fault_result (fun _ => Except.error "boom") 5 "a.txt" "boom" rfl

/-- C5: a fault of one kept file never aborts the traversal: every kept
file, including every one after the faulting one, contributes exactly one
entry to `results`, in traversal order. -/
theorem c5_no_abort (dirPath : String) (fs : FSys) (exts : List String)
    (proc : String → Except String Dict) (tOf : String → ℚ) (T : ℚ)
    (h1 : fs.rootExists = true) (h2 : fs.rootIsDir = true)
    (j : Nat) (hj : j < (keptPaths fs exts).length) (e : String)
    (_hfault : proc ((keptPaths fs exts).get ⟨j, hj⟩) = Except.error e) :
    (processDirectory dirPath fs exts proc tOf T).results.length =
      (keptPaths fs exts).length ∧
    ∀ i (hi : i < (keptPaths fs exts).length),
      (processDirectory dirPath fs exts proc tOf T).results.get? i =
        some (processFile (pathExists fs ((keptPaths fs exts).get ⟨i, hi⟩)) proc
          (tOf ((keptPaths fs exts).get ⟨i, hi⟩))
          ((keptPaths fs exts).get ⟨i, hi⟩)) := by
  rw [processDirectory_ok dirPath fs exts proc tOf T h1 h2]
  refine ⟨by simp [dirFileResults], ?_⟩
  intro i hi
  dsimp only [dirFileResults]
  rw [List.get?_map, List.get?_eq_get hi]
  rfl

/-- A per-file function that raises for `a.txt` and returns a successful
payload for every other path. -/
def procFailA : String → Except String Dict :=
  fun p => if p == "a.txt" then Except.error "boom"
    else Except.ok [("status", PVal.vstr "success")]

/-- C5 witness: with `a.txt` faulting, the later kept file `b.txt` still
gets its entry at index 1 of `results`. -/
theorem c5_witness :
    (processDirectory "d" ⟨true, true, [⟨"a.txt", true⟩, ⟨"b.txt", true⟩]⟩ []
        procFailA (fun _ => 0) 1).results.get? 1 =
      some (processFile true procFailA 0 "b.txt") :=
  (c5_no_abort "d" ⟨true, true, [⟨"a.txt", true⟩, ⟨"b.txt", true⟩]⟩ []
    procFailA (fun _ => 0) 1 rfl rfl 0 (by decide) "boom" rfl).2 1 (by decide)

/-- A per-file function that always returns the stub success payload of
`_do_process`. -/
def procSucc : String → Except String Dict :=
  fun _ => Except.ok [("status", PVal.vstr "success")]

/-- A filesystem whose root directory holds exactly three regular files. -/
def fsThree : FSys := ⟨true, true, [⟨"d/a", true⟩, ⟨"d/b", true⟩, ⟨"d/c", true⟩]⟩

/-- C7 counterexample: with an unrounded traversal time of `1/1000`
seconds and three processed files, the reported elapsed time is `1/1000`
but the reported average is `round(1/3000, 3) = 0`, which differs from
`elapsed / fileCount = 1/3000`: both reported times are rounded to three
decimal places, so the exact identity fails. -/
theorem c7_counterexample :
    (processDirectory "d" fsThree [] procSucc (fun _ => 0) (1/1000)).fileCount = 3 ∧
    (processDirectory "d" fsThree [] procSucc (fun _ => 0) (1/1000)).processTime
      = 1/1000 ∧
    (processDirectory "d" fsThree [] procSucc (fun _ => 0) (1/1000)).averageTime
      = some 0 ∧
    (processDirectory "d" fsThree [] procSucc (fun _ => 0) (1/1000)).averageTime
      ≠ some ((processDirectory "d" fsThree [] procSucc (fun _ => 0)
          (1/1000)).processTime /
        ((processDirectory "d" fsThree [] procSucc (fun _ => 0)
          (1/1000)).fileCount : ℚ)) := by
  have hfc : (processDirectory "d" fsThree [] procSucc (fun _ => 0)
      (1/1000)).fileCount = 3 := by decide
  have hpt : (processDirectory "d" fsThree [] procSucc (fun _ => 0)
      (1/1000)).processTime = 1/1000 := by
    simp [processDirectory, keptPaths, keepFile, pathExists, processFile,
      isSuccessRes, procSucc, fsThree]
    norm_num [round3, roundHalfEven]
  have hat : (processDirectory "d" fsThree [] procSucc (fun _ => 0)
      (1/1000)).averageTime = some 0 := by
    simp [processDirectory, keptPaths, keepFile, pathExists, processFile,
      isSuccessRes, procSucc, fsThree]
    norm_num [round3, roundHalfEven]
  refine ⟨hfc, hpt, hat, ?_⟩
  rw [hat, hpt, hfc]
  intro hcontra
  rw [Option.some.injEq] at hcontra
  norm_num at hcontra

/-- C7 (amended): for every traversal of an existing root directory, the
reported elapsed time is the unrounded total rounded to three decimals,
and `averageElapsed` is the unrounded total divided by `fileCount`,
rounded to three decimals, when `fileCount > 0` — and `0` when
`fileCount = 0`. -/
theorem c7_average_is_rounded_quotient (dirPath : String) (fs : FSys)
    (exts : List String) (proc : String → Except String Dict)
    (tOf : String → ℚ) (T : ℚ)
    (h1 : fs.rootExists = true) (h2 : fs.rootIsDir = true) :
    (processDirectory dirPath fs exts proc tOf T).processTime = round3 T ∧
    (processDirectory dirPath fs exts proc tOf T).averageTime =
      some (if (processDirectory dirPath fs exts proc tOf T).fileCount = 0 then 0
        else round3 (T /
          ((processDirectory dirPath fs exts proc tOf T).fileCount : ℚ))) := by
  rw [processDirectory_ok dirPath fs exts proc tOf T h1 h2]
  refine ⟨rfl, ?_⟩
  dsimp only
  by_cases hemp : dirFileResults fs exts proc tOf = []
  · simp [hemp]
  · simp [hemp, List.isEmpty_iff, List.length_eq_zero]

/-- C7 witness: the amended statement at a concrete empty directory. -/
theorem c7_witness :
    (processDirectory "d" ⟨true, true, []⟩ [] procSucc (fun _ => 0) 7).processTime
      = round3 7 ∧
    (processDirectory "d" ⟨true, true, []⟩ [] procSucc (fun _ => 0) 7).averageTime =
      some (if (processDirectory "d" ⟨true, true, []⟩ [] procSucc
          (fun _ => 0) 7).fileCount = 0 then 0
        else round3 (7 / ((processDirectory "d" ⟨true, true, []⟩ [] procSucc
          (fun _ => 0) 7).fileCount : ℚ))) :=
  c7_average_is_rounded_quotient "d" ⟨true, true, []⟩ [] procSucc
    (fun _ => 0) 7 rfl rfl

/-- C8: for a directory holding exactly the files `a.txt` (at path `pa`)
and `b.txt` (at path `pb`), both kept by the filter, with a per-file
function that returns a successful payload for `pa` and raises a fault
with description `e` for `pb`, the result has `status =
"partial_success"`, `successCount = 1`, `failedCount = 1`, and the failed
entry's error field is the non-empty fault description. -/
theorem c8_one_fault_mixed_result (dirPath pa pb : String) (exts : List String)
    (proc : String → Except String Dict) (tOf : String → ℚ) (T : ℚ)
    (da : Dict) (e : String)
    (hka : keepFile exts pa = true) (hkb : keepFile exts pb = true)
    (hpa : proc pa = Except.ok da)
    (hsa : dget da "status" = some (PVal.vstr "success"))
    (hpb : proc pb = Except.error e) (hne : e ≠ "") :
    (processDirectory dirPath ⟨true, true, [⟨pa, true⟩, ⟨pb, true⟩]⟩ exts
        proc tOf T).status = "partial_success" ∧
    (processDirectory dirPath ⟨true, true, [⟨pa, true⟩, ⟨pb, true⟩]⟩ exts
        proc tOf T).successCount = some 1 ∧
    (processDirectory dirPath ⟨true, true, [⟨pa, true⟩, ⟨pb, true⟩]⟩ exts
        proc tOf T).failedCount = some 1 ∧
    ∃ msg, dget ((processDirectory dirPath ⟨true, true, [⟨pa, true⟩, ⟨pb, true⟩]⟩
        exts proc tOf T).results.getD 1 []) "error" = some (PVal.vstr msg) ∧
      msg ≠ "" := by
  have hkept : keptPaths ⟨true, true, [⟨pa, true⟩, ⟨pb, true⟩]⟩ exts = [pa, pb] := by
    simp [keptPaths, List.filter, hka, hkb]
  have hexa : pathExists ⟨true, true, [⟨pa, true⟩, ⟨pb, true⟩]⟩ pa = true := by
    simp [pathExists]
  have hexb : pathExists ⟨true, true, [⟨pa, true⟩, ⟨pb, true⟩]⟩ pb = true := by
    simp [pathExists]
  have hres : dirFileResults ⟨true, true, [⟨pa, true⟩, ⟨pb, true⟩]⟩ exts proc tOf =
      [dset da "process_time" (PVal.vnum (round3 (tOf pa))),
       [("file_path", PVal.vstr pb), ("status", PVal.vstr "failed"),
        ("error", PVal.vstr e), ("process_time", PVal.vnum 0)]] := by
    rw [dirFileResults, hkept]
    simp [processFile, hexa, hexb, hpa, hpb]
  have hs1 : isSuccessRes (dset da "process_time" (PVal.vnum (round3 (tOf pa))))
      = true := by
    simp [isSuccessRes,
      dget_dset_of_ne da "process_time" "status" _ (by decide), hsa]
  have hs2 : isSuccessRes
      [("file_path", PVal.vstr pb), ("status", PVal.vstr "failed"),
       ("error", PVal.vstr e), ("process_time", PVal.vnum 0)] = false := rfl
  have hfilter : (dirFileResults ⟨true, true, [⟨pa, true⟩, ⟨pb, true⟩]⟩ exts
      proc tOf).filter isSuccessRes =
      [dset da "process_time" (PVal.vnum (round3 (tOf pa)))] := by
    rw [hres]
    simp [List.filter, hs1, hs2]
  have hlen : (dirFileResults ⟨true, true, [⟨pa, true⟩, ⟨pb, true⟩]⟩ exts
      proc tOf).length = 2 := by
    rw [hres]
    rfl
  rw [processDirectory_ok dirPath ⟨true, true, [⟨pa, true⟩, ⟨pb, true⟩]⟩ exts
    proc tOf T rfl rfl]
  refine ⟨?_, ?_, ?_, ⟨e, ?_, hne⟩⟩
  · dsimp only
    rw [hfilter, hlen]
    rfl
  · dsimp only
    rw [hfilter]
    rfl
  · dsimp only
    rw [hfilter, hlen]
    rfl
  · dsimp only
    rw [hres]
    rfl

/-- A per-file function that raises for `b.txt` and returns the stub
success payload for every other path. -/
def procFailB : String → Except String Dict :=
  fun p => if p == "b.txt" then Except.error "boom"
    else Except.ok [("status", PVal.vstr "success")]

/-- C8 witness: the statement at the concrete directory `{a.txt, b.txt}`
with an empty filter and a function faulting exactly on `b.txt`. -/
theorem c8_witness :
    (processDirectory "d" ⟨true, true, [⟨"a.txt", true⟩, ⟨"b.txt", true⟩]⟩ []
        procFailB (fun _ => 0) 1).status = "partial_success" ∧
    (processDirectory "d" ⟨true, true, [⟨"a.txt", true⟩, ⟨"b.txt", true⟩]⟩ []
        procFailB (fun _ => 0) 1).successCount = some 1 ∧
    (processDirectory "d" ⟨true, true, [⟨"a.txt", true⟩, ⟨"b.txt", true⟩]⟩ []
        procFailB (fun _ => 0) 1).failedCount = some 1 ∧
    ∃ msg, dget ((processDirectory "d"
        ⟨true, true, [⟨"a.txt", true⟩, ⟨"b.txt", true⟩]⟩ []
        procFailB (fun _ => 0) 1).results.getD 1 []) "error"
        = some (PVal.vstr msg) ∧ msg ≠ "" :=
  c8_one_fault_mixed_result "d" "a.txt" "b.txt" [] procFailB (fun _ => 0) 1
    [("status", PVal.vstr "success")] "boom" rfl rfl rfl rfl rfl
    (by decide)

/-- C9: a processed file counts as successful exactly when the payload the
per-file function returned carries a `'status'` field equal to
`'success'`; a payload lacking that field, or carrying any other value,
increments `failedCount` and forces the directory status to
`partial_success` even though no fault was raised. -/
theorem c9_payload_status_decides (dirPath : String) (fs : FSys)
    (exts : List String) (proc : String → Except String Dict)
    (tOf : String → ℚ) (T : ℚ)
    (h1 : fs.rootExists = true) (h2 : fs.rootIsDir = true)
    (i : Nat) (hi : i < (keptPaths fs exts).length) (d : Dict)
    (hok : proc ((keptPaths fs exts)[i]) = Except.ok d) :
    isSuccessRes ((processDirectory dirPath fs exts proc tOf T).results.getD i [])
      = decide (dget d "status" = some (PVal.vstr "success")) ∧
    (dget d "status" ≠ some (PVal.vstr "success") →
      ∃ f, (processDirectory dirPath fs exts proc tOf T).failedCount = some f ∧
        0 < f ∧
        (processDirectory dirPath fs exts proc tOf T).status
          = "partial_success") := by
  have hex : pathExists fs ((keptPaths fs exts)[i]) = true :=
    pathExists_of_mem_keptPaths fs exts _ (List.getElem_mem hi)
  have hi' : i < (dirFileResults fs exts proc tOf).length := by
    simpa [dirFileResults] using hi
  have hentry : (dirFileResults fs exts proc tOf)[i] =
      dset d "process_time"
        (PVal.vnum (round3 (tOf ((keptPaths fs exts)[i])))) := by
    simp [dirFileResults, processFile, hex, hok]
  have hstat : dget (dset d "process_time"
      (PVal.vnum (round3 (tOf ((keptPaths fs exts)[i]))))) "status"
      = dget d "status" :=
    dget_dset_of_ne d "process_time" "status" _ (by decide)
  have hresults : (processDirectory dirPath fs exts proc tOf T).results
      = dirFileResults fs exts proc tOf := by
    rw [processDirectory_ok dirPath fs exts proc tOf T h1 h2]
  constructor
  · rw [hresults, List.getD_eq_getElem _ _ hi', hentry]
    simp [isSuccessRes, hstat]
  · intro hns
    have hlt : ((dirFileResults fs exts proc tOf).filter isSuccessRes).length <
        (dirFileResults fs exts proc tOf).length := by
      rw [List.length_filter_lt_length_iff_exists]
      refine ⟨_, List.getElem_mem hi', ?_⟩
      rw [hentry]
      simp [isSuccessRes, hstat, hns]
    rw [processDirectory_ok dirPath fs exts proc tOf T h1 h2]
    refine ⟨(dirFileResults fs exts proc tOf).length -
      ((dirFileResults fs exts proc tOf).filter isSuccessRes).length,
      rfl, ?_, ?_⟩
    · omega
    · dsimp only
      rw [if_neg (by omega)]

/-- A per-file function that returns normally but with a payload carrying
no `status` field. -/
def procNoStatus : String → Except String Dict :=
  fun p => Except.ok [("file_path", PVal.vstr p)]

/-- C9 witness: one existing file whose payload has no `status` field
forces a positive `failedCount` and a `partial_success` directory status,
with no fault raised. -/
theorem c9_witness :
    ∃ f, (processDirectory "d" ⟨true, true, [⟨"a.txt", true⟩]⟩ []
        procNoStatus (fun _ => 0) 1).failedCount = some f ∧
      0 < f ∧
      (processDirectory "d" ⟨true, true, [⟨"a.txt", true⟩]⟩ []
        procNoStatus (fun _ => 0) 1).status = "partial_success" :=
  (c9_payload_status_decides "d" ⟨true, true, [⟨"a.txt", true⟩]⟩ []
    procNoStatus (fun _ => 0) 1 rfl rfl 0 (by decide)
    [("file_path", PVal.vstr "a.txt")] rfl).2 (by decide)

theorem lastDotIdx_dot (cs : List Char) (i : Nat) (h : lastDotIdx cs = some i) :
    cs[i]? = some '.' := by
  induction cs generalizing i with
  | nil => simp [lastDotIdx] at h
  | cons c rest ih =>
    rw [lastDotIdx] at h
    cases hrest : lastDotIdx rest with
    | some k =>
      rw [hrest] at h
      injection h with h
      subst h
      simpa using ih k hrest
    | none =>
      rw [hrest] at h
      cases hc : c == '.' with
      | false => rw [hc] at h; cases h
      | true =>
        rw [hc] at h
        injection h with h
        subst h
        have : c = '.' := by simpa using hc
        simp [this]

theorem pathSuffix_data_empty_or_dot (p : String) :
    (pathSuffix p).data = [] ∨ (pathSuffix p).data.head? = some '.' := by
  cases hl : lastDotIdx (pathName p).data with
  | none =>
    left
    simp [pathSuffix, hl]
  | some i =>
    by_cases hcond : 0 < i ∧ i + 1 < (pathName p).data.length
    · right
      simp only [pathSuffix, hl, hcond, if_true]
      show ((pathName p).data.drop i).head? = some '.'
      rw [List.head?_drop]
      exact lastDotIdx_dot _ i hl
    · left
      simp only [pathSuffix, hl]
      rw [if_neg hcond]

theorem strLower_data (s : String) :
    (strLower s).data = s.data.map Char.toLower := rfl

theorem strLower_head_dot (s : String) (h : s.data.head? = some '.') :
    (strLower s).data.head? = some '.' := by
  rw [strLower_data, List.head?_map, h]
  rfl

/-- C10: with a non-empty filter, a discovered file is kept exactly when
its suffix — leading dot included — lower-cased is verbatim equal to some
filter entry; a filter entry that is non-empty and has no leading dot
matches no file, and a file without an extension is kept only when the
empty string itself is in the filter. -/
theorem c10_verbatim_dot_matching (exts : List String) (p : String)
    (hne : exts ≠ []) :
    (keepFile exts p = true ↔ strLower (pathSuffix p) ∈ exts) ∧
    ((pathSuffix p).data = [] ∨ (pathSuffix p).data.head? = some '.') ∧
    (∀ e, e ∈ exts → e.data.head? ≠ some '.' → e ≠ "" →
      strLower (pathSuffix p) ≠ e) ∧
    (pathSuffix p = "" → (keepFile exts p = true ↔ "" ∈ exts)) := by
  have hkeep : keepFile exts p = true ↔ strLower (pathSuffix p) ∈ exts := by
    simp [keepFile, List.contains, List.elem_iff, List.isEmpty_eq_false.mpr hne]
  refine ⟨hkeep, pathSuffix_data_empty_or_dot p, ?_, ?_⟩
  · intro e _he hdot hne' hcontra
    rcases pathSuffix_data_empty_or_dot p with hemp | hhead
    · have h0 : pathSuffix p = "" := String.ext hemp
      rw [h0] at hcontra
      exact hne' (hcontra.symm.trans rfl)
    · exact hdot (hcontra ▸ strLower_head_dot _ hhead)
  · intro hps
    rw [hkeep, hps]
    exact Iff.rfl

/-- C10 witness: the matching characterisation at the concrete filter
`[".txt"]` and file `a.txt`. -/
theorem c10_witness :
    keepFile [".txt"] "a.txt" = true ↔ strLower (pathSuffix "a.txt") ∈ [".txt"] :=
  (c10_verbatim_dot_matching [".txt"] "a.txt" (by decide)).1
